import Mathlib

/-!
# Verification of the HTLC forwarding core (lnd fork)

Shallow embedding of the parts of the repository relevant to the frozen
claims, together with theorems settling each claim.

Machine integers are modelled as `Nat` with explicit reduction modulo `2 ^ 64`
at every operation where Go's `uint64` wraparound can matter.  Fallible Go
functions returning `(T, error)` are modelled as `Option T` (`none` = error).
Go byte slices are modelled as `List Nat` (each entry a byte value); a
`[]byte` field that distinguishes `nil` from a present slice is modelled as
`Option (List Nat)`.
-/

/-- `2 ^ 64`, the modulus of Go's `uint64` arithmetic. -/
def U64 : Nat := 2 ^ 64

namespace Hop6

/-- Embedding of `calculateForwardingAmount` from `src/unnamed/part_006`
(lines 323-337):

```go
if incomingAmount < lnwire.MilliSatoshi(baseFee) { return 0, fmt.Errorf(...) }
numerator := (uint64(incomingAmount) - uint64(baseFee)) * 1e6
denominator := 1e6 + uint64(proportionalFee)
ceiling := (numerator + denominator - 1) / denominator
```

`incomingAmount` is a `uint64`, `baseFee` and `proportionalFee` are `uint32`.
Every `uint64` operation is taken modulo `2 ^ 64`; the final subtraction of 1
cannot underflow because `numerator + denominator ≥ 1`, so
`(numerator + denominator - 1) % U64` agrees with Go's wraparound evaluation
`((numerator + denominator) mod 2^64) - 1 mod 2^64`. -/
def calculateForwardingAmount (incomingAmount baseFee proportionalFee : Nat) :
    Option Nat :=
  if incomingAmount < baseFee then
    none
  else
    let numerator := ((incomingAmount - baseFee) * 1000000) % U64
    let denominator := (1000000 + proportionalFee) % U64
    some (((numerator + denominator - 1) % U64) / denominator)

end Hop6

namespace Hop5

/-- Embedding of `calculateForwardingAmount` from `src/unnamed/part_005`
(lines 263-281):

```go
var proportionalParts uint64 = 1_000_000
if incomingAmount < lnwire.MilliSatoshi(baseFee) { return 0, fmt.Errorf(...) }
ceiling := ((uint64(incomingAmount) - uint64(baseFee)) +
    (1 + uint64(proportionalFee)/proportionalParts) - 1) /
    (1 + uint64(proportionalFee)/proportionalParts)
```

Note the denominator here is `1 + proportionalFee / 1e6` with *integer*
division of the fee rate, unlike the `part_006` version. -/
def calculateForwardingAmount (incomingAmount baseFee proportionalFee : Nat) :
    Option Nat :=
  if incomingAmount < baseFee then
    none
  else
    let denominator := (1 + proportionalFee / 1000000) % U64
    some ((((incomingAmount - baseFee) + denominator - 1) % U64) / denominator)

end Hop5

namespace Hop6

/-- The `lnwire.FailCode` values used by `DecodeHopIterators` in
`src/unnamed/part_006`.  The wire constants are distinct `uint16` values; an
inductive type with distinct constructors captures everything the claims
need. -/
inductive FailCode where
  | codeNone
  | codeInvalidOnionVersion
  | codeInvalidOnionKey
  | codeInvalidOnionHmac
  | codeTemporaryChannelFailure
  deriving DecidableEq, Repr

/-- The post-commit marking loop of `DecodeHopIterators`
(`src/unnamed/part_006` lines 551-580), for the case where `tx.Commit()`
succeeded.  `codes` are the per-index fail codes produced by the parallel
decode phase, `replays` the set of indices the shared-secret log reported as
replays, and `i` the index of the first entry of `codes` (the loop runs with
`i` starting at 0).

```go
for i := range resps {
    if resp.FailCode != lnwire.CodeNone { continue }
    if replays.Contains(uint16(i)) {
        resp.FailCode = lnwire.CodeInvalidOnionVersion
        continue
    }
    resp.HopIterator = makeSphinxHopIterator(...)
}
``` -/
def markReplays (codes : List FailCode) (replays : List Nat) (i : Nat) :
    List FailCode :=
  match codes with
  | [] => []
  | c :: rest =>
      (if c ≠ FailCode.codeNone then c
       else if i ∈ replays then FailCode.codeInvalidOnionVersion
       else c) :: markReplays rest replays (i + 1)

/-- The marking loop of `DecodeHopIterators` for the case where `tx.Commit()`
returned an error (`src/unnamed/part_006` lines 526-549): every index that
did not already fail onion decoding is marked with
`lnwire.CodeTemporaryChannelFailure`. -/
def markCommitFailure (codes : List FailCode) : List FailCode :=
  codes.map fun c =>
    if c ≠ FailCode.codeNone then c else FailCode.codeTemporaryChannelFailure

/-- Fail-code post-processing of `DecodeHopIterators`
(`src/unnamed/part_006` lines 519-580): the decode phase produces `codes`;
the batch is committed; on success the replay set marks replayed indices, on
failure all not-yet-failed indices get a temporary channel failure. -/
def decodeHopIteratorsFailCodes (codes : List FailCode) (replays : List Nat)
    (commitOk : Bool) : List FailCode :=
  if commitOk then markReplays codes replays 0 else markCommitFailure codes

end Hop6

namespace Hop6

/-- The violation kinds of the hop package's `ErrInvalidPayload` used by
`validateBlindingPoint` (`OmittedViolation`, `IncludedViolation`). -/
inductive PayloadViolation where
  | omittedViolation
  | includedViolation
  deriving DecidableEq, Repr

/-- `record.BlindingPointOnionType`: the onion TLV type of the
`current_blinding_point` record.  The `record` package is not part of the
sources; BOLT 04 assigns this record type 12.  The claims only use it as a
distinguished constant. -/
def BlindingPointOnionType : Nat := 12

/-- The fields of the hop package's `ErrInvalidPayload` error that
`validateBlindingPoint` constructs (`Type`, `Violation`, `FinalHop`). -/
structure ErrInvalidPayload where
  tlvType : Nat
  violation : PayloadViolation
  finalHop : Bool
  deriving DecidableEq, Repr

/-- Public keys are opaque to every claim; they are modelled as `Nat`. -/
abbrev PubKey := Nat

/-- The fields of `BlindingKit` (`src/unnamed/part_006` lines 142-156) that
`validateBlindingPoint` reads.  `UpdateAddBlinding` is the optional blinding
point from `update_add_htlc`'s TLVs. -/
structure BlindingKit where
  UpdateAddBlinding : Option PubKey
  IncomingCltv : Nat
  IncomingAmount : Nat
  deriving Repr

/-- Embedding of `BlindingKit.validateBlindingPoint`
(`src/unnamed/part_006` lines 160-202).  The Go `switch` has four mutually
exclusive guards over `payloadBlindingSet`/`updateBlindingSet`, rendered here
as a `match` over the two options:

* neither set: `ErrInvalidPayload{BlindingPointOnionType, OmittedViolation}`,
* both set: `ErrInvalidPayload{BlindingPointOnionType, IncludedViolation}`,
* only the payload point set: return it,
* only the update-add point set: return it.  -/
def validateBlindingPoint (b : BlindingKit) (payloadBlinding : Option PubKey)
    (isFinalHop : Bool) : Except ErrInvalidPayload PubKey :=
  match payloadBlinding, b.UpdateAddBlinding with
  | none, none =>
      Except.error ⟨BlindingPointOnionType, PayloadViolation.omittedViolation,
        isFinalHop⟩
  | some _, some _ =>
      Except.error ⟨BlindingPointOnionType, PayloadViolation.includedViolation,
        isFinalHop⟩
  | some p, none => Except.ok p
  | none, some u => Except.ok u

end Hop6

namespace Quiescence

/-- The `lnwire.Stfu` message: a channel id and the initiator flag.  Channel
ids are 32-byte values in the source; the claims only compare them, so they
are modelled as `Nat`. -/
structure Stfu where
  chanID : Nat
  initiator : Bool
  deriving DecidableEq, Repr

/-- The state of the `Quiescer` (`src/quiescence/quiescer.go` lines 12-53).
The response channel `resp` is modelled by `respRegistered` (whether a
non-nil channel is registered) and `notifications` (the list of values that
have been sent on it, in order).  The `sendStfuMsg` and `pendingState`
closures are supplied at each call in the operations below; the emitted Stfu
messages are returned explicitly. -/
structure Quiescer where
  chanID : Nat
  weOpened : Bool
  localInit : Bool
  remoteInit : Bool
  sent : Bool
  received : Bool
  respRegistered : Bool
  notifications : List Bool
  deriving DecidableEq, Repr

/-- `NewQuiescer` (lines 58-68): all protocol flags start false, no response
channel is registered and nothing has been notified. -/
def NewQuiescer (chanId : Nat) (weOpened : Bool) : Quiescer :=
  { chanID := chanId, weOpened := weOpened, localInit := false,
    remoteInit := false, sent := false, received := false,
    respRegistered := false, notifications := [] }

/-- `Quiescer.oweStfu` (lines 110-112): `(received || localInit) && !sent`. -/
def oweStfu (q : Quiescer) : Bool :=
  (q.received || q.localInit) && !q.sent

/-- `Quiescer.isQuiescent` (lines 123-125): `sent && received`. -/
def isQuiescent (q : Quiescer) : Bool :=
  q.sent && q.received

/-- `Quiescer.isLocallyInitiatedFinal` (lines 129-144): `fn.None` unless
quiescent; ties (`localInit == remoteInit`) broken by `weOpened`; otherwise
`localInit` tells whether we end up as the initiator. -/
def isLocallyInitiatedFinal (q : Quiescer) : Option Bool :=
  if !isQuiescent q then none
  else if q.localInit == q.remoteInit then some q.weOpened
  else some q.localInit

/-- `Quiescer.sendStfu` (lines 89-106): errors (`none`) if `sent` is already
true, otherwise produces `Stfu{ChanID: chanID, Initiator: localInit}` and
sets `sent = true`. -/
def sendStfu (q : Quiescer) : Option (Stfu × Quiescer) :=
  if q.sent then none
  else some (⟨q.chanID, q.localInit⟩, { q with sent := true })

/-- `Quiescer.tryResolveQuiescenceRequests` (lines 206-221):

```go
if q.isQuiescent() { return }
if q.resp == nil { return }
ourTurn := q.isLocallyInitiatedFinal()
ourTurn.WhenSome(func(ourTurn bool) { q.resp <- fn.Some(ourTurn) })
```

A successful send on `resp` is recorded by appending to `notifications`. -/
def tryResolveQuiescenceRequests (q : Quiescer) : Quiescer :=
  if isQuiescent q then q
  else if !q.respRegistered then q
  else
    match isLocallyInitiatedFinal q with
    | some b => { q with notifications := q.notifications ++ [b] }
    | none => q

/-- `Quiescer.TryProgressState` (lines 175-204).  `pending` is the value the
`pendingState` closure returns at this call.  The `sendStfuMsg` callback is
modelled as always succeeding; the message handed to it is returned in the
emission list.  Returns the new state and the list of emitted Stfu
messages. -/
def TryProgressState (q : Quiescer) (pending : Bool) :
    Quiescer × List Stfu :=
  if !oweStfu q then (q, [])
  else if pending then (q, [])
  else
    match sendStfu q with
    | none => (q, [])
    | some (stfu, q') => (tryResolveQuiescenceRequests q', [stfu])

/-- `Quiescer.RecvStfu` (lines 71-85): errors (`none`) if already received;
otherwise records `received` and `remoteInit`, calls
`tryResolveQuiescenceRequests`, then `TryProgressState`. -/
def RecvStfu (q : Quiescer) (msg : Stfu) (pending : Bool) :
    Option (Quiescer × List Stfu) :=
  if q.received then none
  else
    let q1 := { q with received := true, remoteInit := msg.initiator }
    let q2 := tryResolveQuiescenceRequests q1
    some (TryProgressState q2 pending)

/-- `Quiescer.InitStfu` (lines 161-173): errors (`none`) if `localInit` is
already set; otherwise marks `localInit = true`, registers the response
channel, and calls `TryProgressState`. -/
def InitStfu (q : Quiescer) (pending : Bool) : Option (Quiescer × List Stfu) :=
  if q.localInit then none
  else
    some (TryProgressState
      { q with localInit := true, respRegistered := true } pending)

/-- `Quiescer.CanSendUpdates` (lines 148-150): `!sent && !localInit`. -/
def CanSendUpdates (q : Quiescer) : Bool :=
  !q.sent && !q.localInit

/-- `Quiescer.CanRecvUpdates` (lines 154-156): `!received`. -/
def CanRecvUpdates (q : Quiescer) : Bool :=
  !q.received

/-- One externally drivable quiescer operation (`Resume`, which resets the
machine on reconnect, starts a fresh negotiation and is not part of the
claims' operation alphabet).  Each constructor carries the value the
`pendingState` closure returns when the embedded `TryProgressState` runs. -/
inductive QOp where
  | recv (initiator : Bool) (pending : Bool)
  | initOp (pending : Bool)
  | progress (pending : Bool)
  deriving DecidableEq, Repr

/-- Apply one operation.  The Go methods return an error and leave the
protocol flags untouched when re-invoked illegally (`RecvStfu` twice,
`InitStfu` twice); the step function keeps the state unchanged and emits
nothing in those cases. -/
def step (q : Quiescer) : QOp → Quiescer × List Stfu
  | QOp.recv i p =>
      match RecvStfu q ⟨q.chanID, i⟩ p with
      | none => (q, [])
      | some r => r
  | QOp.initOp p =>
      match InitStfu q p with
      | none => (q, [])
      | some r => r
  | QOp.progress p => TryProgressState q p

/-- Run a sequence of operations, accumulating all emitted Stfu messages. -/
def run (q : Quiescer) : List QOp → Quiescer × List Stfu
  | [] => (q, [])
  | op :: ops =>
      let r := step q op
      let r' := run r.1 ops
      (r'.1, r.2 ++ r'.2)

end Quiescence

namespace Reputation

/-- `reasonableResolution = time.Second * 10` (`src/unnamed/part_003` line 8),
in nanoseconds (Go `time.Duration` is an `int64` nanosecond count). -/
def reasonableResolution : Int := 10 * 1000000000

/-- Go `int64` wraparound: reduce an integer into `[-2^63, 2^63)`, the value
Go's wrapping `int64` arithmetic produces. -/
def wrap64 (z : Int) : Int :=
  (z + 2 ^ 63) % 2 ^ 64 - 2 ^ 63

/-- Fuel-driven floor-log2 on `ℕ` (the fuel only bounds the recursion depth;
64 units suffice for every value below `2 ^ 64`). -/
def log2Fuel : Nat → Nat → Nat
  | 0, _ => 0
  | fuel + 1, n => if n < 2 then 0 else log2Fuel fuel (n / 2) + 1

/-- `⌊log2 n⌋` for `1 ≤ n < 2 ^ 64` (and 0 at 0); this covers every
magnitude an `int64` can take, the domain of the binary64 model below. -/
def ilog2Nat (n : Nat) : Nat :=
  log2Fuel 64 n

/-- Round-to-nearest integer division with ties to even (the IEEE 754
default rounding applied to a significand quotient): the integer nearest to
`n / d`, ties going to the even candidate. -/
def rneDiv (n d : Nat) : Nat :=
  let q := n / d
  let r := n % d
  if 2 * r < d then q
  else if d < 2 * r then q + 1
  else if q % 2 = 0 then q else q + 1

/-- `⌊log2 (n / d)⌋` for positive naturals `n, d < 2 ^ 64`: the true
floor-log2 of the quotient is `c` or `c - 1` where
`c = ⌊log2 n⌋ - ⌊log2 d⌋`, and the comparison `2 ^ c ≤ n / d` (performed in
integer arithmetic) picks the right one. -/
def ilog2Rat (n d : Nat) : Int :=
  let c : Int := (ilog2Nat n : Int) - (ilog2Nat d : Int)
  if 0 ≤ c then (if d * 2 ^ c.toNat ≤ n then c else c - 1)
  else (if d ≤ n * 2 ^ (-c).toNat then c else c - 1)

/-- `float64(x)` for an integer `x`: round to 53 significant bits,
round-to-nearest with ties to even, returned as the exact integer value of
the resulting double.  Integers of magnitude below `2 ^ 53` are exactly
representable and returned unchanged; for larger magnitudes (up to the
`int64` range — far below the binary64 overflow threshold `2 ^ 1024`, so no
infinity arises) the low `⌊log2⌋ - 52` bits are rounded away. -/
def rn53 (x : Int) : Int :=
  let a := x.natAbs
  if a < 2 ^ 53 then x
  else
    let f := ilog2Nat a - 52
    let m := rneDiv a (2 ^ f)
    (if x < 0 then -1 else 1) * (m * 2 ^ f : Nat)

/-- `int64(math.Ceil(float64X / float64R))` for an integer-valued double
`X` (already rounded, e.g. by `rn53`) and a positive integer `R < 2 ^ 53`
that is exactly representable in binary64: the exact quotient `X / R` is
rounded to the nearest double (53-bit significand, ties to even) — IEEE 754
division is correctly rounded — and the exact ceiling of that double is
taken.  `math.Ceil` is exact on doubles, and for every `int64` input `X`
and `R = 10 ^ 10` the ceiling is far inside the `int64` range, so the final
Go conversion is exact.  The binary64 exponent is recovered with
`ilog2Rat`, valid on the `int64` domain; the quotient of nonzero `int64`
values by `10 ^ 10` lies between `2 ^ -34` and `2 ^ 30`, so neither
subnormals nor overflow can arise. -/
def ceilDivRn (X : Int) (R : Nat) : Int :=
  if X = 0 then 0
  else
    let n := X.natAbs
    let k := ilog2Rat n R
    if k ≤ 52 then
      let s := (52 - k).toNat
      let m := rneDiv (n * 2 ^ s) R
      if 0 < X then ((m + 2 ^ s - 1) / 2 ^ s : Nat) else -((m / 2 ^ s : Nat))
    else
      let s := (k - 52).toNat
      let m := rneDiv n (R * 2 ^ s)
      if 0 < X then (m * 2 ^ s : Nat) else -((m * 2 ^ s : Nat))

/-- Embedding of `reputationDelta` (`src/unnamed/part_003` lines 10-38):

```go
opportunityCost := int64(
    math.Ceil(float64(resolution-reasonableResolution)/float64(reasonableResolution)),
) * fees
switch {
case endorsed && success:  return fees - opportunityCost
case endorsed && !success: return (fees + opportunityCost) * -1
case !endorsed:
    fastResolution := resolution <= reasonableResolution
    if success && fastResolution { return fees }
    return 0
}
return 0
```

`resolution - reasonableResolution` is wrapping `int64` subtraction;
`float64(·)` of the difference is `rn53`; the correctly rounded binary64
division by `float64(reasonableResolution)` (`10 ^ 10 < 2 ^ 53`, exactly
representable) followed by `math.Ceil` and the exact `int64` conversion is
`ceilDivRn`; the multiplication by `fees` and the outer `fees - oc`,
`(fees + oc) * -1` arithmetic wrap as `int64`. -/
def reputationDelta (endorsed success : Bool) (fees : Int)
    (resolution : Int) : Int :=
  let x := wrap64 (resolution - reasonableResolution)
  let opportunityCost : Int :=
    wrap64 (ceilDivRn (rn53 x) 10000000000 * fees)
  if endorsed && success then wrap64 (fees - opportunityCost)
  else if endorsed && !success then
    wrap64 (wrap64 (fees + opportunityCost) * (-1))
  else if !endorsed then
    if success && decide (resolution ≤ reasonableResolution) then fees else 0
  else 0

end Reputation

namespace LnwireErr

/-!
Embedding of the structured / coded peer-error file of
`src/unnamed/part_013` (lines 389-890, package `lnwire`).  The outer TLV
framing of `ExtraOpaqueData` (BigSize type and length bytes, handled by the
`tlv` library, which is not part of the sources) is modelled by representing
extra data as the list of `(type, value-bytes)` records in stream order;
per the spec, a stream decodes into records keyed by type, and the packer
emits records in ascending type order.  The *inner* encoding of the
erroneous-field record (2 bytes message type, 2 bytes field number, var
bytes value) is in the sources and is modelled byte for byte.
-/

/-- `typeErroneousField tlv.Type = 1`. -/
def typeErroneousField : Nat := 1

/-- `typeSuggestedValue tlv.Type = 3`. -/
def typeSuggestedValue : Nat := 3

/-- `typeErrorCode tlv.Type = 5`. -/
def typeErrorCode : Nat := 5

/-- `lnwire.MsgOpenChannel` (BOLT 02 message type 32). -/
def MsgOpenChannel : Nat := 32

/-- `lnwire.MsgAcceptChannel` (BOLT 02 message type 33). -/
def MsgAcceptChannel : Nat := 33

/-- `encodeU16` (`src/unnamed/part_013`, in the block at lines 550-556) is an
unimplemented stub in the source: `return nil, nil` — it produces a nil byte
slice and no error.  `none` models the nil slice. -/
def encodeU16 (_ : Nat) : Option (List Nat) := none

/-- `decodeU16` stub: `return nil, nil` (nil decoded value, no error). -/
def decodeU16 (_ : List Nat) : Option Nat := none

/-- `encode32Byte` stub: `return nil, nil`. -/
def encode32Byte (_ : Nat) : Option (List Nat) := none

/-- `decode32Byte` stub: `return nil, nil`. -/
def decode32Byte (_ : List Nat) : Option Nat := none

/-- `encodeU32` stub: `return nil, nil`. -/
def encodeU32 (_ : Nat) : Option (List Nat) := none

/-- `decodeU32` stub: `return nil, nil`. -/
def decodeU32 (_ : List Nat) : Option Nat := none

/-- `encodeU64` stub: `return nil, nil`. -/
def encodeU64 (_ : Nat) : Option (List Nat) := none

/-- `decodeU64` stub: `return nil, nil`. -/
def decodeU64 (_ : List Nat) : Option Nat := none

/-- `errFieldHelper`: the encode/decode pair for one supported message
field.  Erroneous and suggested values are `interface{}` in Go; the claims
only use numeric values, modelled as `Nat`.  The stub codecs never return a
Go error, so no error channel is needed. -/
structure ErrFieldHelper where
  encode : Nat → Option (List Nat)
  decode : List Nat → Option Nat

/-- The `supportedStructuredError` map: `MsgOpenChannel` fields 0-10 (chain
hash, channel id, funding sats, push amount, dust limit, max htlc value in
flight, channel reserve, htlc minimum, feerate, to self delay, max accepted
htlcs) and `MsgAcceptChannel` field 5 (min depth), each with the codec pair
of its width. -/
def supportedStructuredError (messageType fieldNumber : Nat) :
    Option ErrFieldHelper :=
  if messageType = MsgOpenChannel then
    if fieldNumber = 0 ∨ fieldNumber = 1 then
      some ⟨encode32Byte, decode32Byte⟩
    else if 2 ≤ fieldNumber ∧ fieldNumber ≤ 7 then
      some ⟨encodeU64, decodeU64⟩
    else if fieldNumber = 8 then
      some ⟨encodeU32, decodeU32⟩
    else if fieldNumber = 9 ∨ fieldNumber = 10 then
      some ⟨encodeU16, decodeU16⟩
    else none
  else if messageType = MsgAcceptChannel then
    if fieldNumber = 5 then some ⟨encodeU32, decodeU32⟩ else none
  else none

/-- `erroneousField`: message type, field number and the (possibly nil)
encoded erroneous value. -/
structure ErroneousField where
  messageType : Nat
  fieldNumber : Nat
  value : Option (List Nat)
  deriving DecidableEq, Repr

/-- `getFieldHelper` (lines 432-445): look up the codec pair for the
message/field combination, `none` when unknown. -/
def getFieldHelper (e : ErroneousField) : Option ErrFieldHelper :=
  supportedStructuredError e.messageType e.fieldNumber

/-- `StructuredError` (lines 652-656): an embedded `erroneousField` plus the
(possibly nil) encoded suggested value. -/
structure StructuredError where
  errField : ErroneousField
  suggestedValue : Option (List Nat)
  deriving DecidableEq, Repr

/-- Big-endian `uint16` serialization used by `encodeErroneousField`
(`tlv.EUint16`). -/
def encodeU16BE (n : Nat) : List Nat :=
  [(n / 256) % 256, n % 256]

/-- `encodeErroneousField` (lines 447-470): 2 bytes message type, 2 bytes
field number, then the raw value bytes (`tlv.EVarBytes`; a nil slice writes
nothing). -/
def encodeErroneousField (e : ErroneousField) : List Nat :=
  encodeU16BE e.messageType ++ encodeU16BE e.fieldNumber ++ e.value.getD []

/-- `decodeErroneousField` (lines 472-523): requires at least 4 bytes, reads
the big-endian message type and field number, and takes the remaining bytes
as the value (`tlv.DVarBytes`), which is a present (possibly empty) slice. -/
def decodeErroneousField (v : List Nat) : Option ErroneousField :=
  match v with
  | b0 :: b1 :: b2 :: b3 :: rest =>
      some ⟨b0 * 256 + b1, b2 * 256 + b3, some rest⟩
  | _ => none

/-- `NewStructuredError` (lines 716-762): panics (modelled `none`) for an
unsupported message/field combination; otherwise encodes the erroneous and
suggested values with the field's codec (`nil` input values stay nil). -/
def NewStructuredError (messageType fieldNumber : Nat)
    (erroneousValue suggestedValue : Option Nat) : Option StructuredError :=
  let errField : ErroneousField :=
    { messageType := messageType, fieldNumber := fieldNumber, value := none }
  match getFieldHelper errField with
  | none => none
  | some fieldHelper =>
      some { errField := { errField with
               value := erroneousValue.bind fieldHelper.encode },
             suggestedValue := suggestedValue.bind fieldHelper.encode }

/-- `StructuredError.packRecords` (lines 782-808): always packs the type-1
erroneous-field record; packs a type-3 suggested-value record only when
`suggestedValue` is non-nil.  Record types 1 < 3 are already in the
ascending order `PackRecords` produces. -/
def packRecords (s : StructuredError) : List (Nat × List Nat) :=
  (typeErroneousField, encodeErroneousField s.errField) ::
    (match s.suggestedValue with
     | none => []
     | some v => [(typeSuggestedValue, v)])

/-- `StructuredError.ToWireError` (lines 766-780): fails for an unknown
message/field combination, otherwise returns the packed extra data. -/
def ToWireError (s : StructuredError) : Option (List (Nat × List Nat)) :=
  match getFieldHelper s.errField with
  | none => none
  | some _ => some (packRecords s)

/-- `CodedError` (line 812): `type CodedError uint8`. -/
abbrev CodedError := Nat

/-- `CodedError.ToWireError` (lines 825-842): packs a single type-5 record
holding the `uint8` code. -/
def CodedError.ToWireError (c : CodedError) : List (Nat × List Nat) :=
  [(typeErrorCode, [c % 256])]

/-- The result of a successful record extraction in
`StructuredErrorFromWire`: which of the three records were present and
their decoded contents. -/
structure ExtractResult where
  errField : Option ErroneousField
  suggestedValue : Option (List Nat)
  errorCode : Option Nat
  deriving DecidableEq, Repr

/-- `ExtraOpaqueData.ExtractRecords` with the three records of
`StructuredErrorFromWire` (lines 858-870): the type-1 record decodes via
`decodeErroneousField` (fewer than 4 bytes is an error), the type-3 record
is raw var-bytes, the type-5 record is a `uint8` (exactly one byte, else an
error), and records of any other type are ignored.  The `tlv` library is
not part of the sources; this follows the spec's TLV-stream semantics
(records keyed by type; a canonical stream has strictly ascending types). -/
def ExtractRecords : List (Nat × List Nat) → Option ExtractResult
  | [] => some ⟨none, none, none⟩
  | (t, v) :: rest =>
      (ExtractRecords rest).bind fun r =>
        if t = typeErroneousField then
          (decodeErroneousField v).bind fun f => some { r with errField := some f }
        else if t = typeSuggestedValue then
          some { r with suggestedValue := some v }
        else if t = typeErrorCode then
          match v with
          | [c] => some { r with errorCode := some c }
          | _ => none
        else some r

/-- The non-nil results `StructuredErrorFromWire` can return: a structured
error or a coded error. -/
inductive ExtendedErrResult where
  | structured (s : StructuredError)
  | coded (c : Nat)
  deriving DecidableEq, Repr

/-- `StructuredErrorFromWire` (lines 845-890), as a function of the error's
extra data.  Outer `none` models the extract error; `some none` models the
`(nil, nil)` returns (no extra data, or no recognizable record).  If the
type-5 error-code record is present, a coded error with that code is
returned and the field records are not consulted. -/
def StructuredErrorFromWire (extraData : List (Nat × List Nat)) :
    Option (Option ExtendedErrResult) :=
  if extraData.isEmpty then some none
  else
    match ExtractRecords extraData with
    | none => none
    | some r =>
        match r.errorCode with
        | some c => some (some (ExtendedErrResult.coded c))
        | none =>
            match r.errField with
            | none => some none
            | some f =>
                some (some (ExtendedErrResult.structured
                  { errField := f, suggestedValue := r.suggestedValue }))

/-- `StructuredError.ErroneousValue` (lines 658-672): nil when the value is
nil or the message/field combination is unknown; otherwise the field
codec's decode of the stored bytes. -/
def StructuredError.ErroneousValue (s : StructuredError) : Option Nat :=
  match s.errField.value with
  | none => none
  | some v =>
      match getFieldHelper s.errField with
      | none => none
      | some h => h.decode v

/-- `StructuredError.SuggestedValue` (lines 674-688): same shape as
`ErroneousValue` over the suggested value. -/
def StructuredError.SuggestedValue (s : StructuredError) : Option Nat :=
  match s.suggestedValue with
  | none => none
  | some v =>
      match getFieldHelper s.errField with
      | none => none
      | some h => h.decode v

end LnwireErr

/-! ## Theorems settling the claims -/

/-- Helper: an exact integer ceiling `-((-x) / d)` over `ℤ` (with `ℤ`
division rounding toward negative infinity for a `ℕ`-cast divisor) is the
mathematical ceiling of the rational quotient. -/
theorem neg_ediv_neg_eq_ceil (x : ℤ) (d : ℕ) :
    -((-x) / (d : ℤ)) = ⌈(x : ℚ) / (d : ℚ)⌉ := by
  rw [show (x : ℚ) / (d : ℚ) = -((-x : ℚ) / (d : ℚ)) by ring]
  rw [Int.ceil_neg]
  rw [show (-(x : ℚ)) = ((-x : ℤ) : ℚ) by push_cast; ring]
  rw [Rat.floor_intCast_div_natCast (-x) d]

/-- **C1, counterexample.**  The claim quantifies over *every* incoming
amount, base fee and fee rate, but `calculateForwardingAmount` computes the
`uint64` product `(incoming − base) · 10⁶`, which wraps modulo `2 ^ 64`: at
`incoming = 18_446_744_073_710`, `base = 0`, `rate = 0` the function returns
1, while the exact ceiling `⌈(incoming − base) · 10⁶ / 10⁶⌉` is
`18_446_744_073_710`. -/
theorem C1_counterexample :
    Hop6.calculateForwardingAmount 18446744073710 0 0 = some 1
    ∧ (18446744073710 * 1000000) ⌈/⌉ 1000000 = 18446744073710
    ∧ Hop6.calculateForwardingAmount 18446744073710 0 0 ≠
        some ((18446744073710 * 1000000) ⌈/⌉ 1000000) := by
  refine ⟨by decide, by decide, by decide⟩

/-- **C1 (amended).**  For every incoming amount, base fee and proportional
fee rate (the fees being `uint32` values), *provided the 64-bit product does
not overflow* (`(incoming − base) · 10⁶ + 10⁶ + rate ≤ 2 ^ 64`), the
`part_006` `calculateForwardingAmount` returns the exact integer ceiling
`⌈(incoming − base) · 10⁶ / (10⁶ + rate)⌉` whenever `incoming ≥ base`, and
returns an error whenever `incoming < base`.  (`⌈/⌉` is Mathlib's ceiling
division on `ℕ`.)  The claim's two concrete evaluations hold; see the
witness. -/
theorem C1_forwarding_amount (incoming base rate : Nat)
    (hrate : rate < 2 ^ 32)
    (hov : (incoming - base) * 1000000 + 1000000 + rate ≤ U64) :
    (incoming < base → Hop6.calculateForwardingAmount incoming base rate = none)
    ∧ (base ≤ incoming →
        Hop6.calculateForwardingAmount incoming base rate =
          some (((incoming - base) * 1000000) ⌈/⌉ (1000000 + rate))) := by
  constructor
  · intro hlt
    simp [Hop6.calculateForwardingAmount, hlt]
  · intro hle
    have hnlt : ¬incoming < base := not_lt.mpr hle
    have hd : (1000000 + rate) < U64 := by
      have : (1000000 + rate) < 1000000 + 2 ^ 32 := by omega
      calc 1000000 + rate < 1000000 + 2 ^ 32 := this
        _ < U64 := by norm_num [U64]
    have hdm : (1000000 + rate) % U64 = 1000000 + rate := Nat.mod_eq_of_lt hd
    have hnum : (incoming - base) * 1000000 < U64 := by
      have h1 : (incoming - base) * 1000000 + 1000000 + rate ≤ U64 := hov
      omega
    have hnm : ((incoming - base) * 1000000) % U64 = (incoming - base) * 1000000 :=
      Nat.mod_eq_of_lt hnum
    have hsum : (incoming - base) * 1000000 + (1000000 + rate) - 1 < U64 := by
      omega
    simp only [Hop6.calculateForwardingAmount, hnlt, if_false]
    rw [hnm, hdm, Nat.mod_eq_of_lt hsum, Nat.ceilDiv_eq_add_pred_div]

/-- Witness for C1: the claim's two test vectors
(`calculateForwardingAmount(10_002_020, 1000, 1) = 10_001_010`,
`calculateForwardingAmount(100_000, 1000, 10) = 99_000`) and the error case
`incoming < base`. -/
theorem C1_forwarding_amount_witness :
    Hop6.calculateForwardingAmount 10002020 1000 1 =
      some ((10001020 * 1000000) ⌈/⌉ 1000001)
    ∧ Hop6.calculateForwardingAmount 10002020 1000 1 = some 10001010
    ∧ Hop6.calculateForwardingAmount 100000 1000 10 =
      some ((99000 * 1000000) ⌈/⌉ 1000010)
    ∧ Hop6.calculateForwardingAmount 100000 1000 10 = some 99000
    ∧ Hop6.calculateForwardingAmount 10 100 0 = none := by
  refine ⟨?_, by decide, ?_, by decide, ?_⟩
  · exact (C1_forwarding_amount 10002020 1000 1 (by decide) (by decide)).2
      (by decide)
  · exact (C1_forwarding_amount 100000 1000 10 (by decide) (by decide)).2
      (by decide)
  · exact (C1_forwarding_amount 10 100 0 (by decide) (by decide)).1 (by decide)

/-- **C10, counterexample.**  The two coexisting implementations of
`calculateForwardingAmount` are *not* extensionally equal: at
`incoming = 10_002_020`, `base = 1000`, `rate = 1` (with `incoming ≥ base`)
the `part_005` version returns 10_001_020 while the `part_006` version
returns 10_001_010. -/
theorem C10_counterexample :
    Hop5.calculateForwardingAmount 10002020 1000 1 = some 10001020
    ∧ Hop6.calculateForwardingAmount 10002020 1000 1 = some 10001010
    ∧ Hop5.calculateForwardingAmount 10002020 1000 1 ≠
        Hop6.calculateForwardingAmount 10002020 1000 1 := by
  refine ⟨by decide, by decide, by decide⟩

/-- **C10 (amended).**  The two implementations are not extensionally equal.
The `part_005` version forms its denominator as `1 + rate / 10⁶` with
integer division, so for every `rate < 10⁶` the denominator is 1 and it
returns exactly `incoming − base` (for `incoming ≥ base` representable in a
`uint64`); consequently it agrees with the `part_006` ceiling formula only
where that ceiling equals `incoming − base` (e.g. `rate = 0`, or the
`(100_000, 1000, 10)` test vector), and differs elsewhere, e.g. at
`(10_002_020, 1000, 1)`. -/
theorem C10_part005_low_rate (incoming base rate : Nat)
    (hle : base ≤ incoming) (hrate : rate < 1000000) (hin : incoming < U64) :
    Hop5.calculateForwardingAmount incoming base rate = some (incoming - base) := by
  have hnlt : ¬incoming < base := not_lt.mpr hle
  have hdiv : rate / 1000000 = 0 := Nat.div_eq_of_lt hrate
  have h1 : (1 : Nat) % U64 = 1 := by norm_num [U64]
  simp only [Hop5.calculateForwardingAmount, hnlt, if_false, hdiv, h1]
  have hsub : incoming - base < U64 := lt_of_le_of_lt (Nat.sub_le _ _) hin
  rw [show incoming - base + 1 - 1 = incoming - base by omega,
    Nat.mod_eq_of_lt hsub, Nat.div_one]

/-- Witness for C10: the amended statement evaluated at the repository's own
test vector `(100_000, 1000, 10)`, where the `part_005` version returns
`incoming − base = 99_000` (and, at this particular point, agrees with the
`part_006` version). -/
theorem C10_part005_low_rate_witness :
    Hop5.calculateForwardingAmount 100000 1000 10 = some 99000
    ∧ Hop6.calculateForwardingAmount 100000 1000 10 = some 99000 := by
  refine ⟨?_, by decide⟩
  exact C10_part005_low_rate 100000 1000 10 (by decide) (by decide) (by decide)

/-- Helper for C2: element-wise description of the replay-marking loop,
with `j` the index of the first element of `codes`. -/
theorem markReplays_getElem (replays : List Nat) :
    ∀ (codes : List Hop6.FailCode) (j i : Nat) (c : Hop6.FailCode),
      codes[i]? = some c →
      (Hop6.markReplays codes replays j)[i]? =
        some (if c ≠ Hop6.FailCode.codeNone then c
              else if (j + i) ∈ replays then
                Hop6.FailCode.codeInvalidOnionVersion
              else c) := by
  intro codes
  induction codes with
  | nil => intro j i c hc; simp at hc
  | cons c0 rest ih =>
      intro j i c hc
      cases i with
      | zero =>
          simp only [List.getElem?_cons_zero, Option.some.injEq] at hc
          subst hc
          simp [Hop6.markReplays]
      | succ i =>
          simp only [List.getElem?_cons_succ] at hc
          have := ih (j + 1) i c hc
          simpa [Hop6.markReplays, Nat.add_assoc, Nat.add_comm 1 i]
            using this

/-- **C2, counterexample.**  In the cited `part_006` `DecodeHopIterators`,
after a *successful* batch commit a replayed index is marked
`CodeInvalidOnionVersion` (deliberately, to set the BADONION bit), not
`temporary channel failure` as the claim states: for a two-request batch
where the shared-secret log reports index 1 as a replay, the responses are
`[none, invalid onion version]`. -/
theorem C2_counterexample :
    Hop6.decodeHopIteratorsFailCodes
        [Hop6.FailCode.codeNone, Hop6.FailCode.codeNone] [1] true =
      [Hop6.FailCode.codeNone, Hop6.FailCode.codeInvalidOnionVersion]
    ∧ Hop6.FailCode.codeInvalidOnionVersion ≠
        Hop6.FailCode.codeTemporaryChannelFailure := by
  refine ⟨by decide, by decide⟩

/-- **C2 (amended).**  After a successful batch commit, every request index
that the shared-secret log reports as a replay and that passed onion
decoding is marked `invalid onion version` (the BADONION failure code the
source reuses for replays); indices that failed onion decoding keep their
more specific code, and non-replayed decoded indices keep no fail code.  In
particular, for two requests with identical onion ciphertext in one batch
(of which the log reports exactly the second as a replay), one response
carries no fail code and the other carries `invalid onion version`; see the
witness.  (`temporary channel failure` is used only when the commit itself
fails, which then marks *all* not-yet-failed indices.) -/
theorem C2_replay_fail_codes (codes : List Hop6.FailCode) (replays : List Nat)
    (i : Nat) (c : Hop6.FailCode) (hc : codes[i]? = some c) :
    (Hop6.decodeHopIteratorsFailCodes codes replays true)[i]? =
      some (if c ≠ Hop6.FailCode.codeNone then c
            else if i ∈ replays then Hop6.FailCode.codeInvalidOnionVersion
            else c) := by
  have h := markReplays_getElem replays codes 0 i c hc
  simpa [Hop6.decodeHopIteratorsFailCodes] using h

/-- Witness for C2: the two-identical-requests batch (replay set `{1}`,
both requests decoded successfully) yields exactly one response with no
fail code and one with `invalid onion version`; a request that failed onion
decoding keeps its specific code even when reported as a replay. -/
theorem C2_replay_fail_codes_witness :
    (Hop6.decodeHopIteratorsFailCodes
        [Hop6.FailCode.codeNone, Hop6.FailCode.codeNone] [1] true)[0]? =
      some Hop6.FailCode.codeNone
    ∧ (Hop6.decodeHopIteratorsFailCodes
        [Hop6.FailCode.codeNone, Hop6.FailCode.codeNone] [1] true)[1]? =
      some Hop6.FailCode.codeInvalidOnionVersion
    ∧ (Hop6.decodeHopIteratorsFailCodes
        [Hop6.FailCode.codeInvalidOnionHmac, Hop6.FailCode.codeNone]
        [0] true)[0]? =
      some Hop6.FailCode.codeInvalidOnionHmac := by
  refine ⟨?_, ?_, ?_⟩
  · simpa using C2_replay_fail_codes
      [Hop6.FailCode.codeNone, Hop6.FailCode.codeNone] [1] 0
      Hop6.FailCode.codeNone (by decide)
  · simpa using C2_replay_fail_codes
      [Hop6.FailCode.codeNone, Hop6.FailCode.codeNone] [1] 1
      Hop6.FailCode.codeNone (by decide)
  · simpa using C2_replay_fail_codes
      [Hop6.FailCode.codeInvalidOnionHmac, Hop6.FailCode.codeNone] [0] 0
      Hop6.FailCode.codeInvalidOnionHmac (by decide)

/-- **C3 (confirmed).**  `validateBlindingPoint` (as called first by
`DecryptAndValidateFwdInfo`) succeeds in choosing a blinding point exactly
when one of {update-add blinding point, payload current blinding point} is
set and the other is not; when both are set, or neither is set, it fails
with an `ErrInvalidPayload` whose TLV type is the blinding-point onion type
(with the `IncludedViolation` / `OmittedViolation` kinds respectively).
When it succeeds, it returns whichever point was set. -/
theorem C3_blinding_point_validation (kit : Hop6.BlindingKit)
    (payloadBlinding : Option Hop6.PubKey) (isFinalHop : Bool) :
    ((Hop6.validateBlindingPoint kit payloadBlinding isFinalHop).isOk =
      (payloadBlinding.isSome ^^ kit.UpdateAddBlinding.isSome))
    ∧ (payloadBlinding = none → kit.UpdateAddBlinding = none →
        Hop6.validateBlindingPoint kit payloadBlinding isFinalHop =
          Except.error ⟨Hop6.BlindingPointOnionType,
            Hop6.PayloadViolation.omittedViolation, isFinalHop⟩)
    ∧ (∀ p u, payloadBlinding = some p → kit.UpdateAddBlinding = some u →
        Hop6.validateBlindingPoint kit payloadBlinding isFinalHop =
          Except.error ⟨Hop6.BlindingPointOnionType,
            Hop6.PayloadViolation.includedViolation, isFinalHop⟩)
    ∧ (∀ p, payloadBlinding = some p → kit.UpdateAddBlinding = none →
        Hop6.validateBlindingPoint kit payloadBlinding isFinalHop =
          Except.ok p)
    ∧ (∀ u, payloadBlinding = none → kit.UpdateAddBlinding = some u →
        Hop6.validateBlindingPoint kit payloadBlinding isFinalHop =
          Except.ok u) := by
  rcases hp : payloadBlinding with _ | p <;>
    rcases hu : kit.UpdateAddBlinding with _ | u <;>
      simp [Hop6.validateBlindingPoint, hu, Except.isOk, Except.toBool]

/-- Witness for C3: all four concrete configurations of the two optional
blinding points, for a kit with update-add blinding point 7 (or absent) and
payload blinding point 9 (or absent). -/
theorem C3_blinding_point_validation_witness :
    (Hop6.validateBlindingPoint ⟨none, 0, 0⟩ none false).isOk = false
    ∧ (Hop6.validateBlindingPoint ⟨some 7, 0, 0⟩ (some 9) false).isOk = false
    ∧ Hop6.validateBlindingPoint ⟨some 7, 0, 0⟩ none true = Except.ok 7
    ∧ Hop6.validateBlindingPoint ⟨none, 0, 0⟩ (some 9) false = Except.ok 9 := by
  refine ⟨?_, ?_, ?_, ?_⟩
  · simpa using (C3_blinding_point_validation ⟨none, 0, 0⟩ none false).1
  · simpa using (C3_blinding_point_validation ⟨some 7, 0, 0⟩ (some 9) false).1
  · exact (C3_blinding_point_validation ⟨some 7, 0, 0⟩ none true).2.2.2.2 7
      rfl rfl
  · exact (C3_blinding_point_validation ⟨none, 0, 0⟩ (some 9) false).2.2.2.1 9
      rfl rfl

/-- Helper: `tryResolveQuiescenceRequests` is the identity on the state.  It
returns early when the machine *is* quiescent, and in every other state
`isLocallyInitiatedFinal` is `none`, so the send on the response channel is
unreachable. -/
theorem tryResolve_id (q : Quiescence.Quiescer) :
    Quiescence.tryResolveQuiescenceRequests q = q := by
  cases hq : Quiescence.isQuiescent q <;>
    simp [Quiescence.tryResolveQuiescenceRequests,
      Quiescence.isLocallyInitiatedFinal, hq]

/-- Helper: `TryProgressState` never changes the notification log. -/
theorem TryProgressState_notifications (q : Quiescence.Quiescer) (p : Bool) :
    (Quiescence.TryProgressState q p).1.notifications = q.notifications := by
  cases ho : Quiescence.oweStfu q <;> cases p <;>
    simp [Quiescence.TryProgressState, Quiescence.sendStfu, ho,
      tryResolve_id] <;>
  cases hs : q.sent <;> simp [hs]

/-- Helper: once `sent` is true it stays true, and no operation emits any
further Stfu message. -/
theorem step_sent_emits (q : Quiescence.Quiescer) (op : Quiescence.QOp)
    (h : q.sent = true) :
    (Quiescence.step q op).1.sent = true ∧ (Quiescence.step q op).2 = [] := by
  cases op with
  | recv i p =>
      cases hr : q.received
      · simp [Quiescence.step, Quiescence.RecvStfu, hr, tryResolve_id,
          Quiescence.TryProgressState, Quiescence.oweStfu, h]
      · simp [Quiescence.step, Quiescence.RecvStfu, hr, h]
  | initOp p =>
      cases hl : q.localInit
      · simp [Quiescence.step, Quiescence.InitStfu, hl,
          Quiescence.TryProgressState, Quiescence.oweStfu, h]
      · simp [Quiescence.step, Quiescence.InitStfu, hl, h]
  | progress p =>
      simp [Quiescence.step, Quiescence.TryProgressState,
        Quiescence.oweStfu, h]

/-- Helper: from any state with `sent = true`, a run emits nothing. -/
theorem run_sent_emits (ops : List Quiescence.QOp) :
    ∀ (q : Quiescence.Quiescer), q.sent = true →
      (Quiescence.run q ops).1.sent = true ∧ (Quiescence.run q ops).2 = [] := by
  induction ops with
  | nil => intro q h; simpa [Quiescence.run] using h
  | cons op ops ih =>
      intro q h
      obtain ⟨h1, h2⟩ := step_sent_emits q op h
      obtain ⟨h3, h4⟩ := ih _ h1
      simp [Quiescence.run, h2, h3, h4]

/-- Helper: no single operation ever changes the notification log. -/
theorem step_notifications (q : Quiescence.Quiescer) (op : Quiescence.QOp) :
    (Quiescence.step q op).1.notifications = q.notifications := by
  cases op with
  | recv i p =>
      cases hr : q.received
      · simp [Quiescence.step, Quiescence.RecvStfu, hr, tryResolve_id,
          TryProgressState_notifications]
      · simp [Quiescence.step, Quiescence.RecvStfu, hr]
  | initOp p =>
      cases hl : q.localInit
      · simp [Quiescence.step, Quiescence.InitStfu, hl,
          TryProgressState_notifications]
      · simp [Quiescence.step, Quiescence.InitStfu, hl]
  | progress p => simp [Quiescence.step, TryProgressState_notifications]

/-- Helper: no run of operations ever changes the notification log. -/
theorem run_notifications (ops : List Quiescence.QOp) :
    ∀ (q : Quiescence.Quiescer),
      (Quiescence.run q ops).1.notifications = q.notifications := by
  induction ops with
  | nil => intro q; simp [Quiescence.run]
  | cons op ops ih =>
      intro q
      simp [Quiescence.run, ih, step_notifications]

/-- **C6 (confirmed).**  In a quiescent state, `isLocallyInitiatedFinal`
resolves the final initiator: when both Stfu messages carried
`initiator = true` the tie is broken by `weOpened` (we are the final
initiator exactly when we opened the channel); otherwise the side whose
Stfu carried `initiator = true` is the final initiator (the result is
`localInit`: `true` means us, `false` means the remote). -/
theorem C6_final_initiator (q : Quiescence.Quiescer)
    (hq : Quiescence.isQuiescent q = true) :
    (q.localInit = true → q.remoteInit = true →
        Quiescence.isLocallyInitiatedFinal q = some q.weOpened)
    ∧ (q.localInit ≠ q.remoteInit →
        Quiescence.isLocallyInitiatedFinal q = some q.localInit) := by
  constructor
  · intro h1 h2
    simp [Quiescence.isLocallyInitiatedFinal, hq, h1, h2]
  · intro hne
    have hb : (q.localInit == q.remoteInit) = false := by
      cases hl : q.localInit <;> cases hr : q.remoteInit <;> simp_all
    simp [Quiescence.isLocallyInitiatedFinal, hq, hb]

/-- Witness for C6: a quiescent state where both sides claimed to initiate
and we opened the channel resolves to us; a quiescent state where only the
remote claimed to initiate resolves to the remote. -/
theorem C6_final_initiator_witness :
    Quiescence.isLocallyInitiatedFinal
      { chanID := 0, weOpened := true, localInit := true, remoteInit := true,
        sent := true, received := true, respRegistered := false,
        notifications := [] } = some true
    ∧ Quiescence.isLocallyInitiatedFinal
      { chanID := 0, weOpened := true, localInit := false, remoteInit := true,
        sent := true, received := true, respRegistered := false,
        notifications := [] } = some false := by
  constructor
  · exact (C6_final_initiator _ (by decide)).1 rfl rfl
  · exact (C6_final_initiator _ (by decide)).2 (by decide)

/-- **C7 (confirmed).**  `TryProgressState` emits no Stfu while the
`pendingState` callback reports pending updates or while
`oweStfu = (received || localInit) && !sent` is false; when `oweStfu` holds
and nothing is pending it emits exactly one Stfu whose initiator flag is
`localInit` and sets `sent` to true; and from any state with `sent = true`
no sequence of further operations (`RecvStfu` / `InitStfu` /
`TryProgressState`, each with an arbitrary pending answer) ever emits
another Stfu. -/
theorem C7_stfu_emission (q : Quiescence.Quiescer) (pending : Bool)
    (ops : List Quiescence.QOp) :
    ((Quiescence.oweStfu q = false ∨ pending = true) →
        (Quiescence.TryProgressState q pending).2 = [])
    ∧ (Quiescence.oweStfu q = true → pending = false →
        (Quiescence.TryProgressState q pending).2 =
          [{ chanID := q.chanID, initiator := q.localInit }]
        ∧ (Quiescence.TryProgressState q pending).1.sent = true)
    ∧ (q.sent = true → (Quiescence.run q ops).2 = []) := by
  refine ⟨?_, ?_, fun h => (run_sent_emits ops q h).2⟩
  · rintro (ho | hp)
    · simp [Quiescence.TryProgressState, ho]
    · cases ho : Quiescence.oweStfu q <;>
        simp [Quiescence.TryProgressState, ho, hp]
  · intro ho hp
    have hs : q.sent = false := by
      have := ho
      simp only [Quiescence.oweStfu, Bool.and_eq_true, Bool.not_eq_true'] at this
      exact this.2
    simp [Quiescence.TryProgressState, ho, hp, Quiescence.sendStfu, hs,
      tryResolve_id]

/-- Witness for C7 (the spec's E4 scenario): from the fresh state, the peer's
Stfu arrives while an update is pending — nothing is emitted; two further
`TryProgressState` calls with `pendingState` still true emit nothing; once
`pendingState` turns false, exactly one Stfu with `initiator = localInit =
false` is emitted, and a further call emits nothing. -/
theorem C7_stfu_emission_witness :
    (Quiescence.TryProgressState
      { chanID := 0, weOpened := true, localInit := false, remoteInit := true,
        sent := false, received := true, respRegistered := false,
        notifications := [] } true).2 = []
    ∧ (Quiescence.TryProgressState
      { chanID := 0, weOpened := true, localInit := false, remoteInit := true,
        sent := false, received := true, respRegistered := false,
        notifications := [] } false).2 =
        [{ chanID := 0, initiator := false }]
    ∧ (Quiescence.TryProgressState
      { chanID := 0, weOpened := true, localInit := false, remoteInit := true,
        sent := false, received := true, respRegistered := false,
        notifications := [] } false).1.sent = true
    ∧ (Quiescence.run
      { chanID := 0, weOpened := true, localInit := false, remoteInit := true,
        sent := true, received := true, respRegistered := false,
        notifications := [] }
      [Quiescence.QOp.progress false, Quiescence.QOp.progress false]).2 = [] := by
  refine ⟨?_, ?_, ?_, ?_⟩
  · exact (C7_stfu_emission _ true []).1 (Or.inr rfl)
  · exact ((C7_stfu_emission _ false []).2.1 (by decide) rfl).1
  · exact ((C7_stfu_emission _ false []).2.1 (by decide) rfl).2
  · exact (C7_stfu_emission _ false
      [Quiescence.QOp.progress false, Quiescence.QOp.progress false]).2.2 rfl

/-- **C8 (code bug).**  The claim (and the spec: "emit the Stfu message …,
then notify waiters") requires that once the machine becomes quiescent a
final-initiator value is delivered on the response channel registered by
`InitStfu`.  The code never delivers it: `tryResolveQuiescenceRequests`
returns early when `isQuiescent()` — the inverted guard — and in every
non-quiescent state `isLocallyInitiatedFinal()` is `None`, so no send ever
happens.  First conjunct: over *every* operation sequence from a fresh
quiescer, the notification log stays empty.  Remaining conjuncts: the
concrete run `InitStfu; RecvStfu(initiator = true)` (nothing pending)
reaches the quiescent state with a registered response channel — and still
an empty notification log. -/
theorem C8_waiters_never_notified :
    (∀ (cid : Nat) (wo : Bool) (ops : List Quiescence.QOp),
        (Quiescence.run (Quiescence.NewQuiescer cid wo) ops).1.notifications
          = [])
    ∧ Quiescence.isQuiescent
        (Quiescence.run (Quiescence.NewQuiescer 0 true)
          [Quiescence.QOp.initOp false,
           Quiescence.QOp.recv true false]).1 = true
    ∧ (Quiescence.run (Quiescence.NewQuiescer 0 true)
          [Quiescence.QOp.initOp false,
           Quiescence.QOp.recv true false]).1.respRegistered = true
    ∧ (Quiescence.run (Quiescence.NewQuiescer 0 true)
          [Quiescence.QOp.initOp false,
           Quiescence.QOp.recv true false]).1.notifications = [] := by
  refine ⟨fun cid wo ops => ?_, by decide, by decide, by decide⟩
  rw [run_notifications]
  rfl


/-- Helper: the `ℤ`-divisor form of `neg_ediv_neg_eq_ceil`. -/
theorem neg_ediv_neg_eq_ceil_int (x d : ℤ) (hd : 0 ≤ d) :
    -((-x) / d) = ⌈(x : ℚ) / (d : ℚ)⌉ := by
  lift d to ℕ using hd with n
  have h := neg_ediv_neg_eq_ceil x n
  push_cast at h ⊢
  exact h

/-- Helper: the opportunity-cost period count of `reputationDelta` is the
mathematical ceiling of `(resolution − reasonable) / reasonable`. -/
theorem reputation_oc_eq (x : Int) :
    -((-x) / Reputation.reasonableResolution) =
      ⌈(x : ℚ) / ((Reputation.reasonableResolution : Int) : ℚ)⌉ :=
  neg_ediv_neg_eq_ceil_int x Reputation.reasonableResolution
    (by norm_num [Reputation.reasonableResolution])


/-- **C4 (code bug).**  The spec requires the structured error
`{message = open_channel, field = 10, erroneous value = 5,
suggested value = 10}` to pack into error extra data and unpack
*identically*.  In the source, the per-field value codecs (`encodeU16`,
`decodeU16`, …) are unimplemented stubs returning `nil, nil`, so both
values are dropped at construction: the built error carries a nil value and
a nil suggested value, the wire error's type-1 record carries an *empty*
value and no type-3 record is packed at all, and the decoded error's
`ErroneousValue`/`SuggestedValue` are nil rather than 5 and 10.  Message
type and field number do survive.  The coded-error half of the claim holds:
a wire error carrying only error code 3 decodes to the same coded error
with no field information. -/
theorem C4_structured_error_roundtrip_drops_values :
    LnwireErr.NewStructuredError LnwireErr.MsgOpenChannel 10
        (some 5) (some 10) =
      some ⟨⟨32, 10, none⟩, none⟩
    ∧ ((LnwireErr.NewStructuredError LnwireErr.MsgOpenChannel 10
          (some 5) (some 10)).bind LnwireErr.ToWireError).bind
        LnwireErr.StructuredErrorFromWire =
      some (some (LnwireErr.ExtendedErrResult.structured
        ⟨⟨32, 10, some []⟩, none⟩))
    ∧ LnwireErr.StructuredError.ErroneousValue ⟨⟨32, 10, some []⟩, none⟩ =
        none
    ∧ LnwireErr.StructuredError.SuggestedValue ⟨⟨32, 10, some []⟩, none⟩ =
        none
    ∧ LnwireErr.StructuredErrorFromWire (LnwireErr.CodedError.ToWireError 3) =
        some (some (LnwireErr.ExtendedErrResult.coded 3)) := by
  refine ⟨by decide, by decide, by decide, by decide, by decide⟩

/-- Helper for C5: if extraction succeeds on a canonical (strictly
ascending-type) stream containing a one-byte type-5 record, the extracted
error code is exactly that byte. -/
theorem ExtractRecords_errorCode :
    ∀ (extra : List (Nat × List Nat)),
      extra.Pairwise (fun a b => a.1 < b.1) →
      ∀ (c : Nat), (LnwireErr.typeErrorCode, [c]) ∈ extra →
      ∀ (r : LnwireErr.ExtractResult),
        LnwireErr.ExtractRecords extra = some r →
      r.errorCode = some c := by
  intro extra
  induction extra with
  | nil => intro _ c hmem; simp at hmem
  | cons tv rest ih =>
      intro hasc c hmem r hr
      obtain ⟨t, v⟩ := tv
      rw [List.pairwise_cons] at hasc
      simp only [LnwireErr.ExtractRecords] at hr
      cases h0 : LnwireErr.ExtractRecords rest with
      | none => rw [h0] at hr; simp at hr
      | some r0 =>
          rw [h0, Option.some_bind] at hr
          rcases List.mem_cons.mp hmem with hhead | htail
          · rw [Prod.mk.injEq] at hhead
            obtain ⟨ht, hv⟩ := hhead
            subst ht
            subst hv
            simp only [LnwireErr.typeErrorCode, LnwireErr.typeErroneousField,
              LnwireErr.typeSuggestedValue] at hr
            norm_num at hr
            rw [← hr]
          · have ht5 : t < LnwireErr.typeErrorCode :=
              hasc.1 (LnwireErr.typeErrorCode, [c]) htail
            have hr0 : r.errorCode = r0.errorCode := by
              by_cases h1 : t = LnwireErr.typeErroneousField
              · rw [if_pos h1] at hr
                cases hdf : LnwireErr.decodeErroneousField v with
                | none => rw [hdf] at hr; simp at hr
                | some f =>
                    rw [hdf, Option.some_bind] at hr
                    simp only [Option.some.injEq] at hr
                    rw [← hr]
              · rw [if_neg h1] at hr
                by_cases h3 : t = LnwireErr.typeSuggestedValue
                · rw [if_pos h3] at hr
                  simp only [Option.some.injEq] at hr
                  rw [← hr]
                · rw [if_neg h3] at hr
                  have h5 : ¬t = LnwireErr.typeErrorCode :=
                    Nat.ne_of_lt ht5
                  rw [if_neg h5] at hr
                  simp only [Option.some.injEq] at hr
                  rw [← hr]
            rw [hr0]
            exact ih hasc.2 c htail r0 h0

/-- **C5 (confirmed).**  For every wire-error extra data stream (canonical:
strictly ascending record types) containing a one-byte type-5 error-code
record, if record extraction succeeds then `StructuredErrorFromWire`
returns the coded error carrying exactly that code — a value that carries
no erroneous-field or suggested-value information — regardless of whether
type-1 or type-3 records are also present. -/
theorem C5_error_code_precludes_fields (extra : List (Nat × List Nat))
    (hasc : extra.Pairwise (fun a b => a.1 < b.1)) (c : Nat)
    (hmem : (LnwireErr.typeErrorCode, [c]) ∈ extra)
    (r : LnwireErr.ExtractResult)
    (hr : LnwireErr.ExtractRecords extra = some r) :
    LnwireErr.StructuredErrorFromWire extra =
      some (some (LnwireErr.ExtendedErrResult.coded c)) := by
  have hne : extra ≠ [] := by rintro rfl; simp at hmem
  have hcode := ExtractRecords_errorCode extra hasc c hmem r hr
  simp only [LnwireErr.StructuredErrorFromWire]
  rw [if_neg (by simpa [List.isEmpty_iff] using hne)]
  rw [hr]
  simp [hcode]

/-- Witness for C5: a stream carrying a type-1 erroneous-field record, a
type-3 suggested-value record *and* a type-5 error-code record (code 3)
decodes to the coded error 3. -/
theorem C5_error_code_precludes_fields_witness :
    LnwireErr.StructuredErrorFromWire
      [(1, [0, 32, 0, 10]), (3, [0, 10]), (5, [3])] =
      some (some (LnwireErr.ExtendedErrResult.coded 3)) :=
  C5_error_code_precludes_fields
    [(1, [0, 32, 0, 10]), (3, [0, 10]), (5, [3])] (by decide) 3 (by decide)
    ⟨some ⟨32, 10, some []⟩, some [0, 10], some 3⟩ (by decide)

/-- Helper: the fuel-driven floor-log2 is correct whenever the fuel covers
the bit length of the input: `2 ^ log2Fuel fuel n ≤ n < 2 ^ (log2Fuel fuel n + 1)`. -/
theorem log2Fuel_correct :
    ∀ (fuel n : Nat), 1 ≤ n → n < 2 ^ fuel →
      2 ^ Reputation.log2Fuel fuel n ≤ n ∧
        n < 2 ^ (Reputation.log2Fuel fuel n + 1) := by
  intro fuel
  induction fuel with
  | zero =>
      intro n h1 h2
      rw [pow_zero] at h2
      omega
  | succ fuel ih =>
      intro n h1 h2
      by_cases hlt : n < 2
      · have hn1 : n = 1 := by omega
        subst hn1
        simp [Reputation.log2Fuel]
  
      · have h2' : n / 2 < 2 ^ fuel := by
          rw [pow_succ] at h2
          omega
        have h1' : 1 ≤ n / 2 := by omega
        obtain ⟨ha, hb⟩ := ih (n / 2) h1' h2'
        have heq : Reputation.log2Fuel (fuel + 1) n =
            Reputation.log2Fuel fuel (n / 2) + 1 := by
          simp [Reputation.log2Fuel, hlt]
        rw [heq]
        constructor
        · rw [pow_succ]
          omega
        · rw [pow_succ (n := Reputation.log2Fuel fuel (n / 2) + 1)]
          omega

/-- Helper: `ilog2Nat` is bounded by any exponent bounding its input
(within the 64-bit domain of the model). -/
theorem ilog2Nat_le_of_lt {n k : Nat} (hk : k + 1 ≤ 64) (h : n < 2 ^ (k + 1)) :
    Reputation.ilog2Nat n ≤ k := by
  rcases Nat.eq_zero_or_pos n with rfl | hpos
  · have h0 : Reputation.ilog2Nat 0 = 0 := by decide
    omega
  · have h64 : n < 2 ^ 64 :=
      lt_of_lt_of_le h (Nat.pow_le_pow_right (by norm_num) hk)
    obtain ⟨ha, _⟩ := log2Fuel_correct 64 n hpos h64
    by_contra hcon
    push_neg at hcon
    have hle : 2 ^ (k + 1) ≤ 2 ^ Reputation.ilog2Nat n :=
      Nat.pow_le_pow_right (by norm_num) hcon
    have := lt_of_lt_of_le h (le_trans hle ha)
    omega

/-- Helper: round-to-nearest-even division is exact division when the
divisor divides the dividend. -/
theorem rneDiv_exact (n d : Nat) (hd : 0 < d) (hdvd : d ∣ n) :
    Reputation.rneDiv n d = n / d := by
  obtain ⟨c, rfl⟩ := hdvd
  have hr : d * c % d = 0 := Nat.mul_mod_right d c
  simp [Reputation.rneDiv, hr, hd]

/-- Helper: `int64` wraparound is the identity on values already in the
`int64` range. -/
theorem wrap64_eq_self (z : Int) (h1 : -(2 ^ 63) ≤ z) (h2 : z < 2 ^ 63) :
    Reputation.wrap64 z = z := by
  have hpow : (2 : ℤ) ^ 63 = 9223372036854775808 := by norm_num
  have hpow' : (2 : ℤ) ^ 64 = 18446744073709551616 := by norm_num
  have h3 : (0 : ℤ) ≤ z + 2 ^ 63 := by omega
  have h4 : z + 2 ^ 63 < 2 ^ 64 := by omega
  simp only [Reputation.wrap64]
  rw [Int.emod_eq_of_lt h3 h4]
  omega

/-- Helper: `float64` conversion is exact on integers of magnitude below
`2 ^ 53`. -/
theorem rn53_eq_self (x : Int) (h : x.natAbs < 2 ^ 53) :
    Reputation.rn53 x = x := by
  simp only [Reputation.rn53]
  rw [if_pos h]

/-- Helper: `ℤ` division of a negated natural by a positive natural is the
negated ceiling division `-(⌈u / v⌉)` (with the `(u + v - 1) / v` form of
the ceiling). -/
theorem neg_natCast_ediv (u v : Nat) (hv : 0 < v) :
    (-(u : Int)) / (v : Int) = -(((u + v - 1) / v : Nat) : Int) := by
  rcases Nat.eq_zero_or_pos (u % v) with hr | hr
  · obtain ⟨q, rfl⟩ : v ∣ u := Nat.dvd_iff_mod_eq_zero.mpr hr
    have hL : (-(((v * q : Nat)) : Int)) / (v : Int) = -(q : Int) := by
      have : (-(((v * q : Nat)) : Int)) = (v : Int) * (-(q : Int)) := by
        push_cast
        ring
      rw [this, Int.mul_ediv_cancel_left _ (by exact_mod_cast hv.ne')]
    have hR : (v * q + v - 1) / v = q := by
      have h1 : v * q + v - 1 = v * q + (v - 1) := by omega
      rw [h1, Nat.mul_add_div hv, Nat.div_eq_of_lt (by omega)]
      omega
    rw [hL, hR]
  · have hrlt : u % v < v := Nat.mod_lt _ hv
    have hu : u = v * (u / v) + u % v := (Nat.div_add_mod u v).symm
    set q := u / v with hq
    set r := u % v with hrr
    have hL : (-(u : Int)) / (v : Int) = -(q : Int) - 1 := by
      have hu' : (u : Int) = (v : Int) * (q : Int) + (r : Int) := by
        exact_mod_cast hu
      have hdecomp : (-(u : Int)) =
          ((v - r : Nat) : Int) + (v : Int) * (-(q : Int) - 1) := by
        push_cast [Nat.cast_sub (le_of_lt hrlt)]
        rw [hu']
        ring
      rw [hdecomp, Int.add_mul_ediv_left _ _ (by exact_mod_cast hv.ne'),
        Int.ediv_eq_zero_of_lt (Int.natCast_nonneg _)
          (by exact_mod_cast Nat.sub_lt hv hr)]
      ring
    have hR : (u + v - 1) / v = q + 1 := by
      have h1 : u + v - 1 = v * q + (r + v - 1) := by omega
      rw [h1, Nat.mul_add_div hv]
      have h2 : (r + v - 1) / v = 1 := by
        apply Nat.div_eq_of_lt_le <;> omega
      omega
    rw [hL, hR]
    push_cast
    ring

/-- Helper: ceiling division is invariant under scaling dividend and
divisor by a common positive factor. -/
theorem ceil_scale (a b c : Nat) (hb : 0 < b) (hc : 0 < c) :
    (a * c + b * c - 1) / (b * c) = (a + b - 1) / b := by
  have hbc : 0 < b * c := Nat.mul_pos hb hc
  rcases Nat.eq_zero_or_pos (a % b) with hr | hr
  · obtain ⟨q, rfl⟩ : b ∣ a := Nat.dvd_iff_mod_eq_zero.mpr hr
    have hL : (b * q * c + b * c - 1) / (b * c) = q := by
      have h1 : b * q * c + b * c - 1 = (b * c) * q + (b * c - 1) := by
        have : b * q * c = b * c * q := by ring
        omega
      rw [h1, Nat.mul_add_div hbc, Nat.div_eq_of_lt (by omega)]
      omega
    have hR : (b * q + b - 1) / b = q := by
      have h1 : b * q + b - 1 = b * q + (b - 1) := by omega
      rw [h1, Nat.mul_add_div hb, Nat.div_eq_of_lt (by omega)]
      omega
    rw [hL, hR]
  · have hrlt : a % b < b := Nat.mod_lt _ hb
    have hu : a = b * (a / b) + a % b := (Nat.div_add_mod a b).symm
    set q := a / b with hq
    set r := a % b with hrr
    have hL : (a * c + b * c - 1) / (b * c) = q + 1 := by
      have h1 : a * c + b * c - 1 = (b * c) * q + (r * c + b * c - 1) := by
        have : a * c = b * c * q + r * c := by
          calc a * c = (b * q + r) * c := by rw [← hu]
            _ = b * c * q + r * c := by ring
        omega
      rw [h1, Nat.mul_add_div hbc]
      have h2 : (r * c + b * c - 1) / (b * c) = 1 := by
        apply Nat.div_eq_of_lt_le
        · have hcle : 1 * c ≤ r * c := Nat.mul_le_mul_right c hr
          omega
        · have hrc : r * c ≤ (b - 1) * c := Nat.mul_le_mul_right c (by omega)
          have hbc1 : (b - 1) * c = b * c - c := by
            rw [Nat.sub_mul, one_mul]
          have hs2 : Nat.succ 1 * (b * c) = 2 * (b * c) := rfl
          omega
      omega
    have hR : (a + b - 1) / b = q + 1 := by
      have h1 : a + b - 1 = b * q + (r + b - 1) := by omega
      rw [h1, Nat.mul_add_div hb]
      have h2 : (r + b - 1) / b = 1 := by
        apply Nat.div_eq_of_lt_le <;> omega
      omega
    rw [hL, hR]

/-- Helper (heart of the amended C9): when the dividend is a multiple of
`5 ^ 10 = 9765625` and below `2 ^ 53` in magnitude, its quotient by
`10 ^ 10` is a dyadic rational with at most ten fractional bits, hence
exactly representable in binary64, so the correctly rounded binary64
division introduces no error and `ceilDivRn` computes the exact ceiling
`-((-X) / 10 ^ 10)` (in `ℤ` division). -/
theorem ceilDivRn_exact (X : Int) (h53 : X.natAbs < 2 ^ 53)
    (hdvd : (9765625 : Int) ∣ X) :
    Reputation.ceilDivRn X 10000000000 = -((-X) / 10000000000) := by
  by_cases hX0 : X = 0
  · subst hX0
    simp [Reputation.ceilDivRn]
  · simp only [Reputation.ceilDivRn]
    rw [if_neg hX0]
    set n := X.natAbs with hndef
    have hn1 : 1 ≤ n := by
      rcases Nat.eq_zero_or_pos n with h | h
      · exact absurd (Int.natAbs_eq_zero.mp h) hX0
      · exact h
    have hdvdn : 9765625 ∣ n := by
      have h9 : (9765625 : Int).natAbs ∣ X.natAbs := Int.natAbs_dvd_natAbs.mpr hdvd
      simpa using h9
    obtain ⟨n', hn'⟩ := hdvdn
    have hn'1 : 1 ≤ n' := by
      rcases Nat.eq_zero_or_pos n' with h | h
      · subst h
        omega
      · exact h
    have hlog : Reputation.ilog2Nat n ≤ 52 :=
      ilog2Nat_le_of_lt (by norm_num) h53
    have hlogR : Reputation.ilog2Nat 10000000000 = 33 := by decide
    have hk19 : Reputation.ilog2Rat n 10000000000 ≤ 19 := by
      simp only [Reputation.ilog2Rat, hlogR]
      split <;> split <;> omega
    set k := Reputation.ilog2Rat n 10000000000 with hkdef
    have hk52 : k ≤ 52 := by omega
    rw [if_pos hk52]
    set s := (52 - k).toNat with hsdef
    have hs33 : 33 ≤ s := by omega
    have h2s : (2 : Nat) ^ s = 2 ^ 10 * 2 ^ (s - 10) := by
      rw [← pow_add]
      congr 1
      omega
    have hRsplit : (10000000000 : Nat) = 9765625 * 2 ^ 10 := by norm_num
    have hNdvd : (10000000000 : Nat) ∣ n * 2 ^ s := by
      refine ⟨n' * 2 ^ (s - 10), ?_⟩
      rw [hn', h2s, hRsplit]
      ring
    have hm : Reputation.rneDiv (n * 2 ^ s) 10000000000 = n' * 2 ^ (s - 10) := by
      rw [rneDiv_exact _ _ (by norm_num) hNdvd, hn', h2s, hRsplit]
      rw [show 9765625 * n' * (2 ^ 10 * 2 ^ (s - 10)) =
        9765625 * 2 ^ 10 * (n' * 2 ^ (s - 10)) by ring]
      exact Nat.mul_div_cancel_left _ (by norm_num)
    rw [hm]
    rcases Int.natAbs_eq X with hXe | hXe
    · -- X positive
      have hXpos : 0 < X := by
        rw [hndef] at hn'
        rw [hXe]
        exact_mod_cast hn1
      rw [if_pos hXpos]
      have hRHS : -(-X / 10000000000) = (((n' + 1023) / 1024 : Nat) : Int) := by
        rw [hXe, ← hndef, hn']
        rw [show (-(((9765625 * n' : Nat)) : Int)) =
          (9765625 : Int) * (-(n' : Int)) by push_cast; ring]
        rw [show (10000000000 : Int) = (9765625 : Int) * ((1024 : Nat) : Int) by norm_num]
        rw [Int.mul_ediv_mul_of_pos _ _ (by norm_num : (0 : ℤ) < 9765625)]
        rw [neg_natCast_ediv n' 1024 (by norm_num), neg_neg]
        norm_num
      rw [hRHS, h2s]
      rw [show (n' * 2 ^ (s - 10) + 2 ^ 10 * 2 ^ (s - 10) - 1) /
            (2 ^ 10 * 2 ^ (s - 10)) = (n' + 2 ^ 10 - 1) / 2 ^ 10 from
        ceil_scale n' (2 ^ 10) (2 ^ (s - 10)) (by positivity) (by positivity)]
      norm_num
    · -- X negative
      have hXneg : ¬0 < X := by
        have h1 : (1 : ℤ) ≤ (n : Int) := by exact_mod_cast hn1
        omega
      rw [if_neg hXneg]
      have hLHS : (n' * 2 ^ (s - 10)) / 2 ^ s = n' / 2 ^ 10 := by
        rw [h2s, show n' * 2 ^ (s - 10) = 2 ^ (s - 10) * n' by ring,
          show (2 : Nat) ^ 10 * 2 ^ (s - 10) = 2 ^ (s - 10) * 2 ^ 10 by ring,
          Nat.mul_div_mul_left _ _ (by positivity)]
      rw [hLHS]
      have hRHS : -(-X / 10000000000) = -(((n' / 1024 : Nat)) : Int) := by
        rw [hXe, neg_neg, ← hndef, hn']
        rw [show (10000000000 : Int) = ((10000000000 : Nat) : Int) by norm_cast]
        rw [← Int.natCast_div]
        rw [hRsplit, Nat.mul_div_mul_left _ _ (by norm_num)]
        norm_num
      rw [hRHS]
      norm_num

set_option maxRecDepth 8000 in
/-- **C9, counterexample.**  The claim quantifies over *every* fee amount
and resolution time, but `reputationDelta` computes with wrapping `int64`
arithmetic and binary64 floating point, both of which diverge from the
claim's exact formula:

* int64 wrap: at `fees = 2 ^ 62`, endorsed and unsuccessful,
  `resolution = 25 s` (opportunity-cost multiplier `⌈1.5⌉ = 2`, float-exact),
  Go computes `2 * 2 ^ 62`, which wraps to `-2 ^ 63`, and returns `+2 ^ 62`
  instead of the claim's `-(fees + 2 · fees) = -3 · 2 ^ 62`;
* binary64 rounding: at `fees = 1`, endorsed and successful,
  `resolution − reasonable = 10 ^ 16 + 1` ns (≈ 116 days, a valid
  `time.Duration`), `float64(10 ^ 16 + 1)` rounds (tie to even) to
  `10 ^ 16`, the quotient is exactly `10 ^ 6`, and the code returns
  `1 − 10 ^ 6 = -999999`, while the claim's exact ceiling is `10 ^ 6 + 1`,
  giving `-10 ^ 6`. -/
theorem C9_counterexample :
    Reputation.reputationDelta true false 4611686018427387904 25000000000 =
      4611686018427387904
    ∧ ⌈((25000000000 - Reputation.reasonableResolution : Int) : ℚ) /
        ((Reputation.reasonableResolution : Int) : ℚ)⌉ = 2
    ∧ Reputation.reputationDelta true false 4611686018427387904 25000000000 ≠
        -(4611686018427387904 +
          ⌈((25000000000 - Reputation.reasonableResolution : Int) : ℚ) /
            ((Reputation.reasonableResolution : Int) : ℚ)⌉ * 4611686018427387904)
    ∧ Reputation.reputationDelta true true 1 10000010000000001 = -999999
    ∧ ⌈((10000010000000001 - Reputation.reasonableResolution : Int) : ℚ) /
        ((Reputation.reasonableResolution : Int) : ℚ)⌉ = 1000001
    ∧ Reputation.reputationDelta true true 1 10000010000000001 ≠
        1 - ⌈((10000010000000001 - Reputation.reasonableResolution : Int) : ℚ) /
            ((Reputation.reasonableResolution : Int) : ℚ)⌉ * 1 := by
  have hc1 : ⌈((25000000000 - Reputation.reasonableResolution : Int) : ℚ) /
      ((Reputation.reasonableResolution : Int) : ℚ)⌉ = 2 := by
    rw [show (25000000000 - Reputation.reasonableResolution : Int) =
      15000000000 by decide, ← reputation_oc_eq]
    decide
  have hc2 : ⌈((10000010000000001 - Reputation.reasonableResolution : Int) : ℚ) /
      ((Reputation.reasonableResolution : Int) : ℚ)⌉ = 1000001 := by
    rw [show (10000010000000001 - Reputation.reasonableResolution : Int) =
      10000000000000001 by decide, ← reputation_oc_eq]
    decide
  refine ⟨by decide, hc1, ?_, by decide, hc2, ?_⟩
  · rw [hc1]
    decide
  · rw [hc2]
    decide

/-- **C9 (amended).**  For every endorsed flag, success flag, fee amount
and resolution time such that (i) the resolution is a nonnegative duration
of at most `2 ^ 53` ns, (ii) `resolution − reasonable` is a whole multiple
of 5 seconds (so the binary64 quotient is exact), and (iii)
`|fees| + |opportunity_cost|` stays below `2 ^ 63` (no `int64` overflow),
`reputationDelta` returns: `fees − opportunity_cost` when endorsed and
successful; `−(fees + opportunity_cost)` when endorsed and unsuccessful;
`fees` when not endorsed, successful, and resolution ≤ the reasonable
threshold (10 seconds); and 0 otherwise — where
`opportunity_cost = ⌈(resolution − reasonable) / reasonable⌉ · fees`. -/
theorem C9_reputation_delta (endorsed success : Bool) (fees resolution : Int)
    (hres0 : 0 ≤ resolution) (hres1 : resolution ≤ 2 ^ 53)
    (hdvd : (5000000000 : Int) ∣
      (resolution - Reputation.reasonableResolution))
    (hov : |fees| +
      |⌈((resolution - Reputation.reasonableResolution : Int) : ℚ) /
        ((Reputation.reasonableResolution : Int) : ℚ)⌉ * fees| < 2 ^ 63) :
    (endorsed = true → success = true →
        Reputation.reputationDelta endorsed success fees resolution =
          fees - ⌈((resolution - Reputation.reasonableResolution : Int) : ℚ) /
              ((Reputation.reasonableResolution : Int) : ℚ)⌉ * fees)
    ∧ (endorsed = true → success = false →
        Reputation.reputationDelta endorsed success fees resolution =
          -(fees + ⌈((resolution - Reputation.reasonableResolution : Int) : ℚ) /
              ((Reputation.reasonableResolution : Int) : ℚ)⌉ * fees))
    ∧ (endorsed = false → success = true →
        resolution ≤ Reputation.reasonableResolution →
        Reputation.reputationDelta endorsed success fees resolution = fees)
    ∧ (endorsed = false →
        (success = false ∨ Reputation.reasonableResolution < resolution) →
        Reputation.reputationDelta endorsed success fees resolution = 0) := by
  have hRval : Reputation.reasonableResolution = 10000000000 := by
    norm_num [Reputation.reasonableResolution]
  have h253 : (2 : ℤ) ^ 53 = 9007199254740992 := by norm_num
  have h263 : (2 : ℤ) ^ 63 = 9223372036854775808 := by norm_num
  have h253n : (2 : ℕ) ^ 53 = 9007199254740992 := by norm_num
  set x := resolution - Reputation.reasonableResolution with hxdef
  have hwrap_x : Reputation.wrap64 x = x := by
    apply wrap64_eq_self <;> omega
  have hxabs : x.natAbs < 2 ^ 53 := by
    rw [h253n]
    omega
  have hrn : Reputation.rn53 x = x := rn53_eq_self x hxabs
  have hdvd9 : (9765625 : Int) ∣ x := dvd_trans ⟨512, by norm_num⟩ hdvd
  have hcd : Reputation.ceilDivRn (Reputation.rn53 x) 10000000000 =
      ⌈(x : ℚ) / ((Reputation.reasonableResolution : Int) : ℚ)⌉ := by
    rw [hrn, ceilDivRn_exact x hxabs hdvd9, ← hRval]
    exact reputation_oc_eq x
  set p := ⌈(x : ℚ) / ((Reputation.reasonableResolution : Int) : ℚ)⌉
    with hpdef
  have habs1 : |p * fees| < 2 ^ 63 := by
    have h0 := abs_nonneg fees
    linarith
  have hocwrap : Reputation.wrap64
      (Reputation.ceilDivRn (Reputation.rn53 x) 10000000000 * fees) =
      p * fees := by
    rw [hcd]
    have hb := abs_lt.mp habs1
    exact wrap64_eq_self _ (le_of_lt hb.1) hb.2
  refine ⟨?_, ?_, ?_, ?_⟩
  · intro he hs
    subst he; subst hs
    have h1 : Reputation.reputationDelta true true fees resolution =
        Reputation.wrap64 (fees - Reputation.wrap64
          (Reputation.ceilDivRn (Reputation.rn53 (Reputation.wrap64
            (resolution - Reputation.reasonableResolution))) 10000000000 *
            fees)) := rfl
    rw [h1, ← hxdef, hwrap_x, hocwrap]
    have habs2 : |fees - p * fees| < 2 ^ 63 := by
      have h := abs_add fees (-(p * fees))
      rw [abs_neg] at h
      have he : fees + -(p * fees) = fees - p * fees := by ring
      rw [he] at h
      linarith
    have hb := abs_lt.mp habs2
    exact wrap64_eq_self _ (le_of_lt hb.1) hb.2
  · intro he hs
    subst he; subst hs
    have h1 : Reputation.reputationDelta true false fees resolution =
        Reputation.wrap64 (Reputation.wrap64 (fees + Reputation.wrap64
          (Reputation.ceilDivRn (Reputation.rn53 (Reputation.wrap64
            (resolution - Reputation.reasonableResolution))) 10000000000 *
            fees)) * (-1)) := rfl
    rw [h1, ← hxdef, hwrap_x, hocwrap]
    have habs3 : |fees + p * fees| < 2 ^ 63 := by
      have h := abs_add fees (p * fees)
      linarith
    have hb := abs_lt.mp habs3
    rw [wrap64_eq_self _ (le_of_lt hb.1) hb.2]
    rw [show (fees + p * fees) * (-1) = -(fees + p * fees) by ring]
    have habs4 : |(-(fees + p * fees))| < 2 ^ 63 := by
      rw [abs_neg]
      exact habs3
    have hb4 := abs_lt.mp habs4
    exact wrap64_eq_self _ (le_of_lt hb4.1) hb4.2
  · intro he hs hr
    subst he; subst hs
    have h1 : Reputation.reputationDelta false true fees resolution =
        (if (true && decide (resolution ≤ Reputation.reasonableResolution)) =
          true then fees else 0) := rfl
    rw [h1]
    simp [hr]
  · intro he hd
    subst he
    rcases hd with hs | hr
    · subst hs
      have h1 : Reputation.reputationDelta false false fees resolution =
          (if (false && decide (resolution ≤ Reputation.reasonableResolution))
            = true then fees else 0) := rfl
      rw [h1]
      simp
    · have h1 : Reputation.reputationDelta false success fees resolution =
          (if (success && decide (resolution ≤ Reputation.reasonableResolution))
            = true then fees else 0) := rfl
      rw [h1]
      simp [not_le.mpr hr]

set_option maxRecDepth 8000 in
/-- Witness for C9: all four cases at concrete values satisfying the side
conditions — endorsed resolutions of 25 s (`⌈1.5⌉ = 2` periods of
opportunity cost) for success and failure, a fast unendorsed success at
5 s, and a slow unendorsed success at 15 s. -/
theorem C9_reputation_delta_witness :
    Reputation.reputationDelta true true 100 25000000000 = -100
    ∧ Reputation.reputationDelta true false 100 25000000000 = -300
    ∧ Reputation.reputationDelta false true 100 5000000000 = 100
    ∧ Reputation.reputationDelta false true 100 15000000000 = 0 := by
  have hc25 : ⌈((25000000000 - Reputation.reasonableResolution : Int) : ℚ) /
      ((Reputation.reasonableResolution : Int) : ℚ)⌉ = 2 := by
    rw [show (25000000000 - Reputation.reasonableResolution : Int) =
      15000000000 by decide, ← reputation_oc_eq]
    decide
  have hc5 : ⌈((5000000000 - Reputation.reasonableResolution : Int) : ℚ) /
      ((Reputation.reasonableResolution : Int) : ℚ)⌉ = 0 := by
    rw [show (5000000000 - Reputation.reasonableResolution : Int) =
      -5000000000 by decide, ← reputation_oc_eq]
    decide
  have hc15 : ⌈((15000000000 - Reputation.reasonableResolution : Int) : ℚ) /
      ((Reputation.reasonableResolution : Int) : ℚ)⌉ = 1 := by
    rw [show (15000000000 - Reputation.reasonableResolution : Int) =
      5000000000 by decide, ← reputation_oc_eq]
    decide
  have hdvd25 : (5000000000 : Int) ∣
      (25000000000 - Reputation.reasonableResolution) := by
    rw [show (25000000000 - Reputation.reasonableResolution : Int) =
      15000000000 by decide]
    exact ⟨3, by norm_num⟩
  have hdvd5 : (5000000000 : Int) ∣
      (5000000000 - Reputation.reasonableResolution) := by
    rw [show (5000000000 - Reputation.reasonableResolution : Int) =
      -5000000000 by decide]
    exact ⟨-1, by norm_num⟩
  have hdvd15 : (5000000000 : Int) ∣
      (15000000000 - Reputation.reasonableResolution) := by
    rw [show (15000000000 - Reputation.reasonableResolution : Int) =
      5000000000 by decide]
  refine ⟨?_, ?_, ?_, ?_⟩
  · have h := (C9_reputation_delta true true 100 25000000000 (by norm_num)
      (by norm_num) hdvd25 (by rw [hc25]; norm_num)).1 rfl rfl
    rw [h, hc25]
    norm_num
  · have h := (C9_reputation_delta true false 100 25000000000 (by norm_num)
      (by norm_num) hdvd25 (by rw [hc25]; norm_num)).2.1 rfl rfl
    rw [h, hc25]
    norm_num
  · exact (C9_reputation_delta false true 100 5000000000 (by norm_num)
      (by norm_num) hdvd5 (by rw [hc5]; norm_num)).2.2.1 rfl rfl
      (by norm_num [Reputation.reasonableResolution])
  · exact (C9_reputation_delta false true 100 15000000000 (by norm_num)
      (by norm_num) hdvd15 (by rw [hc15]; norm_num)).2.2.2 rfl
      (Or.inr (by norm_num [Reputation.reasonableResolution]))
